import Mathlib

/-!
Formal model of the ETF-DeFi multi-asset vault program.

The definitions below are a shallow embedding of the Rust source in
`programs/vault/src/lib.rs`, `programs/vault/src/swap.rs` and
`rebalancing-mxe/encrypted-ixs/src/lib.rs`.  Machine integers (`i64`, `u64`,
`i128`) are modelled as `Int`/`Nat`; Rust `checked_*` operations become
`Option`-valued helpers, unchecked Rust arithmetic is modelled with explicit
two's-complement wrapping (`wrap64`), and Rust truncating division (`/` on
signed integers) is `Int.tdiv`.
-/

set_option maxRecDepth 4000

namespace ETFVault

/-- Error codes of the vault program (the `VaultError` enum, lib.rs:2361). -/
inductive VaultError where
  | InvalidAmount
  | InsufficientShares
  | InsufficientAssets
  | MathOverflow
  | InvalidUnderlyingAsset
  | Unauthorized
  | InvalidQuote
  | InvalidQuoteSignature
  | StaleQuote
  | InvalidPrice
  | InvalidWeights
  | InvalidName
  | InvalidMint
  | InvalidATA
  | InvalidAssetCount
  | InvalidRemainingAccounts
  | SwapFailed
  | MarinadeError
  | AssetNotFound
  deriving DecidableEq, Repr

/-- Two's-complement reinterpretation of an integer as a signed 64-bit value.
This models the result of Rust wrapping `i64` arithmetic and of `as i64`
casts. -/
def wrap64 (x : Int) : Int := (x + 2 ^ 63) % 2 ^ 64 - 2 ^ 63

/-- Rust `u64 as i64` cast (the argument is a `u64` value, i.e. `< 2^64`). -/
def u64AsI64 (x : Nat) : Int := wrap64 x

/-- Rust `i64 as u64` cast. -/
def i64AsU64 (x : Int) : Nat := (x % 2 ^ 64).toNat

/-- Rust `i64::checked_mul`. -/
def checkedMul64 (a b : Int) : Option Int :=
  if -(2 ^ 63) ≤ a * b ∧ a * b < 2 ^ 63 then some (a * b) else none

/-- Rust `i64::checked_add`. -/
def checkedAdd64 (a b : Int) : Option Int :=
  if -(2 ^ 63) ≤ a + b ∧ a + b < 2 ^ 63 then some (a + b) else none

/-- Rust `i64::checked_div` (truncating; fails on division by zero and on
`i64::MIN / -1`). -/
def checkedDiv64 (a b : Int) : Option Int :=
  if b = 0 ∨ (a = -(2 ^ 63) ∧ b = -1) then none else some (a.tdiv b)

/-- Rust `i128::checked_mul`. -/
def checkedMul128 (a b : Int) : Option Int :=
  if -(2 ^ 127) ≤ a * b ∧ a * b < 2 ^ 127 then some (a * b) else none

/-- Rust `i128::checked_div`. -/
def checkedDiv128 (a b : Int) : Option Int :=
  if b = 0 ∨ (a = -(2 ^ 127) ∧ b = -1) then none else some (a.tdiv b)

/-- The `.ok_or(VaultError::MathOverflow)?` idiom used throughout the source. -/
def orOverflow (o : Option Int) : Except VaultError Int :=
  match o with
  | some v => .ok v
  | none => .error .MathOverflow

/-- `10i64.pow n` as used by the source.  Rust's `pow` is repeated unchecked
multiplication, which in the on-chain release profile wraps modulo `2^64`;
the value is therefore the two's-complement reinterpretation of `10^n` —
exact for `n ≤ 18`, silently wrapped above (e.g. `10i64.pow(19)` is
`-8446744073709551616`). -/
def pow10 (n : Nat) : Int := wrap64 (10 ^ n)

/-- Solana public keys are opaque identifiers for this model; only equality
matters to the embedded code. -/
abbrev Pubkey := Nat

/-- `NormalizedPrice` (lib.rs:56): a price in micro-USD (6 decimals). -/
structure NormalizedPrice where
  price_usd : Int
  original_price : Int
  expo : Int
  deriving DecidableEq, Repr

/-- `NormalizedPrice::usd_to_tokens` (lib.rs:88-98):
`usd_micro.checked_mul(10^token_decimals)?.checked_div(price_usd)?`, where
each fallible step maps to `VaultError::MathOverflow`. -/
def NormalizedPrice.usd_to_tokens (p : NormalizedPrice) (usd_micro : Int)
    (token_decimals : Nat) : Except VaultError Int := do
  let m ← orOverflow (checkedMul64 usd_micro (pow10 token_decimals))
  let q ← orOverflow (checkedDiv64 m p.price_usd)
  return q

/-- `NormalizedPrice::tokens_to_usd` (lib.rs:101-104):
`(amount as i64 * price_usd) / 10^token_decimals`.  Both the cast and the
multiplication are unchecked in the source; the wrapping behaviour is modelled
explicitly with `wrap64`. -/
def NormalizedPrice.tokens_to_usd (p : NormalizedPrice) (amount : Nat)
    (token_decimals : Nat) : Int :=
  (wrap64 (u64AsI64 amount * p.price_usd)).tdiv (pow10 token_decimals)

/-- `Vault::calculate_share_price` (lib.rs:253-275).  Bootstrap case for
`total_shares == 0`; a silent `$1.00` fallback when TVL is non-positive while
shares exist; otherwise `tvl * 10^9 / total_shares / 10^3` with checked
operations. -/
def Vault.calculate_share_price (tvl_usd_micro : Int) (total_shares : Nat) :
    Except VaultError Int :=
  if total_shares = 0 then
    .ok 1000000
  else if tvl_usd_micro ≤ 0 then
    .ok 1000000
  else do
    let s ← orOverflow (checkedMul64 tvl_usd_micro 1000000000)
    let q ← orOverflow (checkedDiv64 s (u64AsI64 total_shares))
    let r ← orOverflow (checkedDiv64 q 1000)
    return r

/-- STEP 1 of `withdraw_multi_asset` (lib.rs:1007): the withdrawal percentage
scaled by `10^6`, computed in `u128` (`(shares as u128 * 1_000_000) /
total_shares as u128`).  For `u64` inputs the `u128` arithmetic is exact, so
plain `Nat` arithmetic is a faithful model. -/
def withdrawal_percentage (shares total_shares : Nat) : Nat :=
  shares * 1000000 / total_shares

/-- STEP 2 of `withdraw_multi_asset` (lib.rs:1059): the per-asset proportional
amount `((current_balance as u128 * withdrawal_percentage) / 1_000_000) as
u64`.  The trailing `% 2^64` models the final `as u64` narrowing cast. -/
def amount_to_withdraw (current_balance shares total_shares : Nat) : Nat :=
  current_balance * withdrawal_percentage shares total_shares / 1000000 % 2 ^ 64

/-- `PriceSource` (lib.rs:40). -/
inductive PriceSource where
  | Switchboard
  | MockOracle
  deriving DecidableEq, Repr

/-- `AssetConfig` (state.rs:27). -/
structure AssetConfig where
  mint : Pubkey
  weight : Nat
  ata : Pubkey
  deriving DecidableEq, Repr

/-- The vault account state written by `create_vault` (state.rs:6,
lib.rs:386-395). -/
structure VaultState where
  admin : Pubkey
  name : String
  vault_token_mint : Pubkey
  assets : List AssetConfig
  marinade_strategy : Option Pubkey
  price_source : PriceSource
  mock_oracle : Option Pubkey
  deriving DecidableEq, Repr

/-- The validation prefix of `create_vault` (lib.rs:356-396) followed by the
construction of the vault state.  Checks run in source order: name length,
asset count, weight sum, weight positivity, remaining-account count; state is
only produced after every check passes. -/
def create_vault (admin : Pubkey) (vault_token_mint : Pubkey) (name : String)
    (assets : List AssetConfig) (remaining_accounts_len : Nat) :
    Except VaultError VaultState :=
  if ¬ (0 < name.length ∧ name.length ≤ 32) then .error .InvalidName
  else if ¬ (0 < assets.length ∧ assets.length ≤ 10) then .error .InvalidAssetCount
  else if ¬ ((assets.map fun a => a.weight).sum = 100) then .error .InvalidWeights
  else if ¬ (assets.all fun a => decide (0 < a.weight)) then .error .InvalidWeights
  else if ¬ (remaining_accounts_len = assets.length * 2) then .error .InvalidRemainingAccounts
  else .ok
    { admin := admin
      name := name
      vault_token_mint := vault_token_mint
      assets := assets
      marinade_strategy := none
      price_source := .Switchboard
      mock_oracle := none }

/-- `MockSwap::calculate_swap_output` (swap.rs:23-81): converts an input amount
to an output amount through two prices, with checked `i128` arithmetic and a
final positivity requirement (`VaultError::InvalidAmount` on a zero result).
The trailing `% 2^64` models the final `as u64` cast. -/
def MockSwap.calculate_swap_output (amount_in : Nat) (from_price : Int)
    (from_expo : Int) (to_price : Int) (to_expo : Int)
    (from_decimals to_decimals : Nat) : Except VaultError Nat := do
  let value_from ← orOverflow (checkedMul128 (amount_in : Int) from_price)
  let expo_diff := from_expo - to_expo
  let value_adjusted ←
    if 0 < expo_diff then
      orOverflow (checkedMul128 value_from ((10 : Int) ^ expo_diff.toNat))
    else if expo_diff < 0 then
      orOverflow (checkedDiv128 value_from ((10 : Int) ^ (-expo_diff).toNat))
    else pure value_from
  let amount_out_base ← orOverflow (checkedDiv128 value_adjusted to_price)
  let decimals_diff : Int := (to_decimals : Int) - (from_decimals : Int)
  let amount_out ←
    if 0 < decimals_diff then
      orOverflow (checkedMul128 amount_out_base ((10 : Int) ^ decimals_diff.toNat))
    else if decimals_diff < 0 then
      orOverflow (checkedDiv128 amount_out_base ((10 : Int) ^ (-decimals_diff).toNat))
    else pure amount_out_base
  if 0 < amount_out then
    return i64AsU64 amount_out
  else
    throw .InvalidAmount

/-- `get_token_decimals` (lib.rs:1867-1875): ignores the mint and always
returns 9. -/
def get_token_decimals (_mint : Pubkey) : Except VaultError Nat := .ok 9

/-- `calculate_asset_usd_value` (lib.rs:1854-1864):
`(balance as i64 * price) / 10^decimals` with decimals taken from
`get_token_decimals`; the multiplication and the cast are unchecked, hence the
`wrap64`. -/
def calculate_asset_usd_value (balance : Nat) (price : Int) (mint : Pubkey) :
    Except VaultError Int := do
  let decimals ← get_token_decimals mint
  return (wrap64 (u64AsI64 balance * price)).tdiv (pow10 decimals)

/-- Input snapshot of the plaintext `rebalance` instruction (lib.rs:1540):
the three vault assets (mint and target weight per asset), the three ATA
balances read on-chain, and the three MockOracle prices in micro-USD. -/
structure Snapshot where
  mint0 : Pubkey
  mint1 : Pubkey
  mint2 : Pubkey
  weight0 : Nat
  weight1 : Nat
  weight2 : Nat
  bal0 : Nat
  bal1 : Nat
  bal2 : Nat
  price0 : Int
  price1 : Int
  price2 : Int
  deriving DecidableEq, Repr

/-- STEP 3 of `rebalance` (lib.rs:1578-1607): the three per-asset USD values
and the TVL accumulated with `checked_add` starting from `0`. -/
def plainTotals (s : Snapshot) : Except VaultError (Int × Int × Int × Int) := do
  let u0 ← calculate_asset_usd_value s.bal0 s.price0 s.mint0
  let u1 ← calculate_asset_usd_value s.bal1 s.price1 s.mint1
  let u2 ← calculate_asset_usd_value s.bal2 s.price2 s.mint2
  let t0 ← orOverflow (checkedAdd64 0 u0)
  let t1 ← orOverflow (checkedAdd64 t0 u1)
  let total ← orOverflow (checkedAdd64 t1 u2)
  return (u0, u1, u2, total)

/-- Per-asset drift percent in `rebalance` (lib.rs:1623-1624):
`(current_usds[i] * 100) / total_usd - weight`, unchecked `i64` arithmetic. -/
def plainDriftPct (current total : Int) (weight : Nat) : Int :=
  wrap64 ((wrap64 (current * 100)).tdiv total - (weight : Int))

/-- Per-asset target USD value in `rebalance` (lib.rs:1622):
`(total_usd * weight) / 100`, unchecked `i64` multiplication. -/
def plainTargetUsd (total : Int) (weight : Nat) : Int :=
  (wrap64 (total * (weight : Int))).tdiv 100

/-- Per-asset excess entry pushed in `rebalance` (lib.rs:1626):
`current_usds[i] - target_usd`, unchecked `i64` subtraction. -/
def plainExcessUsd (current total : Int) (weight : Nat) : Int :=
  wrap64 (current - plainTargetUsd total weight)

/-- The needs-rebalance verdict of `rebalance` (STEP 4, lib.rs:1609-1640):
`false` at the empty-vault early return, otherwise true iff some asset's
absolute drift strictly exceeds the hardcoded threshold of 5 percent. -/
def plainNeedsRebalance (s : Snapshot) : Except VaultError Bool := do
  let (u0, u1, u2, total) ← plainTotals s
  if total = 0 then
    return false
  else
    return (decide (5 < |plainDriftPct u0 total s.weight0|)
      || decide (5 < |plainDriftPct u1 total s.weight1|)
      || decide (5 < |plainDriftPct u2 total s.weight2|))

/-- One swap computed (and logged) by the plaintext `rebalance` STEP 5. -/
structure PlainSwap where
  fromIdx : Nat
  toIdx : Nat
  amountIn : Nat
  amountOut : Nat
  deriving DecidableEq, Repr

/-- Observable outcome of the plaintext `rebalance` instruction: whether a
rebalance was deemed necessary, and the sequence of swaps computed in STEP 5
(the source only logs them; no transfer is executed). -/
structure PlainOutcome where
  needsRebalance : Bool
  swaps : List PlainSwap
  deriving DecidableEq, Repr

/-- Index lookup for the three snapshot prices (`prices[i]`, lib.rs:1576). -/
def Snapshot.price (s : Snapshot) (i : Nat) : Int :=
  if i = 0 then s.price0 else if i = 1 then s.price1 else s.price2

/-- Index lookup for the three snapshot mints (`vault.assets[i].mint`). -/
def Snapshot.mint (s : Snapshot) (i : Nat) : Pubkey :=
  if i = 0 then s.mint0 else if i = 1 then s.mint1 else s.mint2

/-- The body of the STEP 5 inner loop of `rebalance` (lib.rs:1651-1691) for a
fixed over-allocated asset `fromIdx` with excess `excess_usd`, iterating one
candidate under-allocated entry.  Swaps are only computed when the matched
USD amount strictly exceeds `$1` (`1_000_000` micro-USD); the source never
reduces `excess_usd` between pairings. -/
def plainSwapStep (s : Snapshot) (fromIdx : Nat) (excess_usd : Int)
    (acc : List PlainSwap) (te : Nat × Int × Int) :
    Except VaultError (List PlainSwap) := do
  let (toIdx, _, deficit_usd) := te
  if deficit_usd < 0 ∧ fromIdx ≠ toIdx then
    let swap_usd := min excess_usd |deficit_usd|
    if 1000000 < swap_usd then
      let from_decimals ← get_token_decimals (s.mint fromIdx)
      let to_decimals ← get_token_decimals (s.mint toIdx)
      let amount_in := (wrap64 (swap_usd * pow10 from_decimals)).tdiv (s.price fromIdx)
      let amount_in_u64 := i64AsU64 amount_in
      let amount_out ← MockSwap.calculate_swap_output amount_in_u64
        (s.price fromIdx) (-6) (s.price toIdx) (-6) from_decimals to_decimals
      return acc ++ [⟨fromIdx, toIdx, amount_in_u64, amount_out⟩]
    else
      return acc
  else
    return acc

/-- The plaintext `rebalance` instruction (lib.rs:1540-1698), restricted to
its arithmetic content after the authorization, oracle and staleness checks.
Returns the decision and the computed swap sequence. -/
def plainRebalance (s : Snapshot) : Except VaultError PlainOutcome := do
  let (u0, u1, u2, total) ← plainTotals s
  if total = 0 then
    return { needsRebalance := false, swaps := [] }
  else
    let d0 := plainDriftPct u0 total s.weight0
    let d1 := plainDriftPct u1 total s.weight1
    let d2 := plainDriftPct u2 total s.weight2
    let e0 := plainExcessUsd u0 total s.weight0
    let e1 := plainExcessUsd u1 total s.weight1
    let e2 := plainExcessUsd u2 total s.weight2
    let needs := decide (5 < |d0|) || decide (5 < |d1|) || decide (5 < |d2|)
    if ¬ needs then
      return { needsRebalance := false, swaps := [] }
    else
      let drifts : List (Nat × Int × Int) := [(0, d0, e0), (1, d1, e1), (2, d2, e2)]
      let swaps ← drifts.foldlM (fun acc fe => do
        let (fromIdx, _, excess_usd) := fe
        if 0 < excess_usd then
          drifts.foldlM (plainSwapStep s fromIdx excess_usd) acc
        else
          return acc) ([] : List PlainSwap)
      return { needsRebalance := true, swaps := swaps }

/-- Two's-complement reinterpretation of an integer as a signed 128-bit value,
modelling unchecked Rust `i128` arithmetic in the encrypted circuit. -/
def wrap128 (x : Int) : Int := (x + 2 ^ 127) % 2 ^ 128 - 2 ^ 127

/-- `pow10` of the encrypted circuit (encrypted-ixs lib.rs:236-266): an
if-chain equal to `10^exp` for `exp ≤ 20` and capped at `10^20` above. -/
def pow10i128 (exp : Nat) : Int := if exp ≤ 20 then 10 ^ exp else 10 ^ 20

/-- `calculate_asset_usd` of the encrypted circuit (encrypted-ixs
lib.rs:171-186): `i128` product divided by `10^decimals`, clamped at
`i64::MAX`, and forced to `0` when the balance is zero or the price is
non-positive. -/
def calculate_asset_usd (balance : Nat) (price : Int) (decimals : Nat) : Int :=
  let is_zero := balance = 0 ∨ price ≤ 0
  let usd_value := (wrap128 ((balance : Int) * price)).tdiv (pow10i128 decimals)
  let clamped := if (2 ^ 63 - 1 : Int) < usd_value then 2 ^ 63 - 1 else wrap64 usd_value
  if is_zero then 0 else clamped

/-- `calculate_token_amount` of the encrypted circuit (encrypted-ixs
lib.rs:188-205): `usd * 10^decimals / price` in `i128`, clamped into the
`u64` range, and forced to `0` for a non-positive price.  (The circuit runs
data-obliviously; the quotient at `price = 0` is discarded by the final
select, modelled here by Lean's `tdiv _ 0 = 0`.) -/
def calculate_token_amount (usd_value price : Int) (decimals : Nat) : Nat :=
  let is_zero_price := price ≤ 0
  let amount := (wrap128 (usd_value * pow10i128 decimals)).tdiv price
  let clamped : Nat :=
    if (2 ^ 64 - 1 : Int) < amount then 2 ^ 64 - 1
    else if amount < 0 then 0
    else amount.toNat
  if is_zero_price then 0 else clamped

/-- `calculate_min_output` of the encrypted circuit (encrypted-ixs
lib.rs:207-234): expected output through the two prices, reduced to 99%
(1% slippage tolerance), clamped into `u64`, and `0` on a zero
denominator. -/
def calculate_min_output (amount_in : Nat) (from_price to_price : Int)
    (from_decimals to_decimals : Nat) : Nat :=
  let numerator := wrap128 (wrap128 ((amount_in : Int) * from_price) * pow10i128 to_decimals)
  let denominator := wrap128 (to_price * pow10i128 from_decimals)
  let is_zero_denom := denominator = 0
  let expected_output := if is_zero_denom then 0 else numerator.tdiv denominator
  let min_output := (wrap128 (expected_output * 99)).tdiv 100
  let clamped : Nat :=
    if (2 ^ 64 - 1 : Int) < min_output then 2 ^ 64 - 1
    else if min_output < 0 then 0
    else min_output.toNat
  if is_zero_denom then 0 else clamped

/-- `RebalancingInput` of the encrypted circuit (encrypted-ixs lib.rs:7-13);
the three-element arrays are unrolled into per-asset fields. -/
structure RebalancingInput where
  bal0 : Nat
  bal1 : Nat
  bal2 : Nat
  price0 : Int
  price1 : Int
  price2 : Int
  weight0 : Nat
  weight1 : Nat
  weight2 : Nat
  dec0 : Nat
  dec1 : Nat
  dec2 : Nat
  threshold : Nat
  deriving DecidableEq, Repr

/-- `input.asset_prices[i]` lookup. -/
def RebalancingInput.price (inp : RebalancingInput) (i : Nat) : Int :=
  if i = 0 then inp.price0 else if i = 1 then inp.price1 else inp.price2

/-- `input.asset_decimals[i]` lookup. -/
def RebalancingInput.dec (inp : RebalancingInput) (i : Nat) : Nat :=
  if i = 0 then inp.dec0 else if i = 1 then inp.dec1 else inp.dec2

/-- `input.asset_balances[i]` lookup. -/
def RebalancingInput.bal (inp : RebalancingInput) (i : Nat) : Nat :=
  if i = 0 then inp.bal0 else if i = 1 then inp.bal1 else inp.bal2

/-- `input.asset_weights[i]` lookup. -/
def RebalancingInput.weight (inp : RebalancingInput) (i : Nat) : Nat :=
  if i = 0 then inp.weight0 else if i = 1 then inp.weight1 else inp.weight2

/-- `SwapInstruction` of the encrypted circuit (encrypted-ixs lib.rs:16-21). -/
structure SwapInstruction where
  from_asset : Nat
  to_asset : Nat
  amount : Nat
  min_output : Nat
  deriving DecidableEq, Repr

/-- `RebalancingResult` of the encrypted circuit (encrypted-ixs lib.rs:23-29);
`swaps` always holds six entries (unused slots keep the all-zero value). -/
structure RebalancingResult where
  swap_needed : Bool
  swap_count : Nat
  swaps : List SwapInstruction
  total_tvl_usd : Int
  drifts : List Int
  deriving DecidableEq, Repr

/-- Inner loop body of the circuit's swap generation (encrypted-ixs
lib.rs:119-159): one candidate deficit entry matched against the current
excess asset, updating the swap array, the swap count and the remaining
excess. -/
def circuitSwapStep (inp : RebalancingInput) (fromIdx : Nat)
    (st : (List SwapInstruction × Nat) × Int) (dEntry : Nat × Int × Bool) :
    (List SwapInstruction × Nat) × Int :=
  let ((swaps, count), remaining) := st
  let (toIdx, deficit_usd, is_deficit) := dEntry
  if is_deficit ∧ 0 < remaining ∧ count < 6 ∧ fromIdx ≠ toIdx then
    let swap_usd := if remaining < deficit_usd then remaining else deficit_usd
    let amount_in := calculate_token_amount swap_usd (inp.price fromIdx) (inp.dec fromIdx)
    let mo := calculate_min_output amount_in (inp.price fromIdx) (inp.price toIdx)
      (inp.dec fromIdx) (inp.dec toIdx)
    ((swaps.set count ⟨fromIdx, toIdx, amount_in, mo⟩, count + 1),
      wrap64 (remaining - swap_usd))
  else
    st

/-- Outer loop body of the circuit's swap generation (encrypted-ixs
lib.rs:114-161): process one excess entry against all three deficit
entries. -/
def circuitSwapOuter (inp : RebalancingInput) (deficits : List (Nat × Int × Bool))
    (st : List SwapInstruction × Nat) (eEntry : Nat × Int × Bool) :
    List SwapInstruction × Nat :=
  let (fromIdx, remaining_excess, is_excess) := eEntry
  if is_excess then
    (deficits.foldl (circuitSwapStep inp fromIdx) (st, remaining_excess)).1
  else
    st

/-- Per-asset USD value inside `compute_rebalancing` (encrypted-ixs
lib.rs:40-48). -/
def circuitUsd (inp : RebalancingInput) (i : Nat) : Int :=
  calculate_asset_usd (inp.bal i) (inp.price i) (inp.dec i)

/-- The circuit's TVL accumulator `total_usd += usd_value` over the three
assets (encrypted-ixs lib.rs:37-48); the `i64` additions are unchecked. -/
def circuitTotalUsd (inp : RebalancingInput) : Int :=
  wrap64 (wrap64 (wrap64 (0 + circuitUsd inp 0) + circuitUsd inp 1) + circuitUsd inp 2)

/-- The circuit's per-asset target USD value (encrypted-ixs lib.rs:75),
zero when the vault is empty. -/
def circuitTargetUsd (inp : RebalancingInput) (i : Nat) : Int :=
  if circuitTotalUsd inp = 0 then 0
  else (wrap64 (circuitTotalUsd inp * (inp.weight i : Int))).tdiv 100

/-- The circuit's per-asset drift percent (encrypted-ixs lib.rs:78-80):
current weight percent (zero when empty) minus target weight. -/
def circuitDriftPct (inp : RebalancingInput) (i : Nat) : Int :=
  wrap64 ((if circuitTotalUsd inp = 0 then 0
    else (wrap64 (circuitUsd inp i * 100)).tdiv (circuitTotalUsd inp)) - (inp.weight i : Int))

/-- The circuit's needs-rebalance flag (encrypted-ixs lib.rs:82-83):
some asset's absolute drift strictly exceeds the input threshold. -/
def circuitNeeds (inp : RebalancingInput) : Bool :=
  decide ((inp.threshold : Int) < |circuitDriftPct inp 0|)
  || decide ((inp.threshold : Int) < |circuitDriftPct inp 1|)
  || decide ((inp.threshold : Int) < |circuitDriftPct inp 2|)

/-- The circuit's per-asset excess/deficit difference
`current_usds[i] - target_usds[i]` (encrypted-ixs lib.rs:100). -/
def circuitDiff (inp : RebalancingInput) (i : Nat) : Int :=
  wrap64 (circuitUsd inp i - circuitTargetUsd inp i)

/-- The circuit's `excesses` array (encrypted-ixs lib.rs:95-110). -/
def circuitExcesses (inp : RebalancingInput) : List (Nat × Int × Bool) :=
  [if 0 < circuitDiff inp 0 then (0, circuitDiff inp 0, true) else (0, 0, false),
   if 0 < circuitDiff inp 1 then (1, circuitDiff inp 1, true) else (0, 0, false),
   if 0 < circuitDiff inp 2 then (2, circuitDiff inp 2, true) else (0, 0, false)]

/-- The circuit's `deficits` array (encrypted-ixs lib.rs:95-110). -/
def circuitDeficits (inp : RebalancingInput) : List (Nat × Int × Bool) :=
  [if circuitDiff inp 0 < 0 then (0, wrap64 (-circuitDiff inp 0), true) else (0, 0, false),
   if circuitDiff inp 1 < 0 then (1, wrap64 (-circuitDiff inp 1), true) else (0, 0, false),
   if circuitDiff inp 2 < 0 then (2, wrap64 (-circuitDiff inp 2), true) else (0, 0, false)]

/-- The circuit's swap-generation block (encrypted-ixs lib.rs:88-162): the
six-slot swap array and swap count, populated only when the vault is
non-empty and rebalancing is needed. -/
def circuitSwapGen (inp : RebalancingInput) : List SwapInstruction × Nat :=
  if (! decide (circuitTotalUsd inp = 0)) && circuitNeeds inp then
    (circuitExcesses inp).foldl (circuitSwapOuter inp (circuitDeficits inp))
      (List.replicate 6 ⟨0, 0, 0, 0⟩, 0)
  else
    (List.replicate 6 ⟨0, 0, 0, 0⟩, 0)

/-- `compute_rebalancing` of the encrypted circuit (encrypted-ixs
lib.rs:31-169), assembled from the named sub-computations above. -/
def compute_rebalancing (inp : RebalancingInput) : RebalancingResult :=
  { swap_needed := circuitNeeds inp && (! decide (circuitTotalUsd inp = 0))
    swap_count := (circuitSwapGen inp).2
    swaps := (circuitSwapGen inp).1
    total_tvl_usd := circuitTotalUsd inp
    drifts := [circuitDriftPct inp 0, circuitDriftPct inp 1, circuitDriftPct inp 2] }

/-! Helper lemmas about the machine-integer model. -/

theorem wrap64_eq_self {x : Int} (h1 : -(2 ^ 63) ≤ x) (h2 : x < 2 ^ 63) :
    wrap64 x = x := by
  unfold wrap64
  have h3 : (x + 2 ^ 63) % 2 ^ 64 = x + 2 ^ 63 :=
    Int.emod_eq_of_lt (by omega) (by omega)
  omega

theorem wrap128_eq_self {x : Int} (h1 : -(2 ^ 127) ≤ x) (h2 : x < 2 ^ 127) :
    wrap128 x = x := by
  unfold wrap128
  have h3 : (x + 2 ^ 127) % 2 ^ 128 = x + 2 ^ 127 :=
    Int.emod_eq_of_lt (by omega) (by omega)
  omega

theorem pow10_eq_of_le {n : Nat} (h : n ≤ 18) : pow10 n = 10 ^ n := by
  unfold pow10
  have h1 : (10 : Int) ^ n ≤ 10 ^ 18 := pow_le_pow_right₀ (by norm_num) h
  have h2 : (0 : Int) < 10 ^ n := by positivity
  have h3 : (10 : Int) ^ 18 < 2 ^ 63 := by norm_num
  exact wrap64_eq_self (by linarith) (by linarith)

theorem pow10_nine : pow10 9 = 10 ^ 9 := pow10_eq_of_le (by norm_num)

theorem tdiv_coe (m n : Nat) : (m : Int).tdiv n = ((m / n : Nat) : Int) := rfl

theorem except_bind_ok {α β : Type} (a : α) (f : α → Except VaultError β) :
    (Except.ok a >>= f) = f a := rfl

theorem checkedMul64_some {a b m : Int} (h : checkedMul64 a b = some m) :
    m = a * b := by
  unfold checkedMul64 at h
  split at h
  · exact (Option.some_inj.mp h).symm
  · exact absurd h (by simp)

theorem checkedDiv64_some {a b q : Int} (h : checkedDiv64 a b = some q) :
    q = a.tdiv b := by
  unfold checkedDiv64 at h
  split at h
  · exact absurd h (by simp)
  · exact (Option.some_inj.mp h).symm

theorem tdiv_nonneg_of {a b : Int} (ha : 0 ≤ a) (hb : 0 ≤ b) : 0 ≤ a.tdiv b := by
  obtain ⟨m, rfl⟩ := Int.eq_ofNat_of_zero_le ha
  obtain ⟨n, rfl⟩ := Int.eq_ofNat_of_zero_le hb
  rw [tdiv_coe]
  exact Int.ofNat_nonneg _

theorem tdiv_le_self_of {a b : Int} (ha : 0 ≤ a) (hb : 0 ≤ b) : a.tdiv b ≤ a := by
  obtain ⟨m, rfl⟩ := Int.eq_ofNat_of_zero_le ha
  obtain ⟨n, rfl⟩ := Int.eq_ofNat_of_zero_le hb
  rw [tdiv_coe]
  exact_mod_cast Nat.div_le_self m n

/-! Claim theorems. -/

/-- Claim C1 (code bug): with shares outstanding and non-positive TVL the
share-price computation silently returns the `$1.00` fallback
(`1_000_000` micro-dollars) instead of surfacing an error condition, both
at TVL `0` and at negative TVL. -/
theorem share_price_fallback_on_zero_tvl :
    Vault.calculate_share_price 0 1 = .ok 1000000 ∧
    Vault.calculate_share_price (-1) 1 = .ok 1000000 := by
  exact ⟨rfl, rfl⟩

/-- Claim C6: with zero outstanding shares the share-price computation
returns exactly `1_000_000` micro-dollars (i.e. `$1.00`) for every TVL,
including zero and negative values. -/
theorem share_price_bootstrap_one_dollar (tvl : Int) :
    Vault.calculate_share_price tvl 0 = .ok 1000000 := by
  unfold Vault.calculate_share_price
  simp

/-- Claim C4: burning all outstanding shares (`shares_to_burn =
total_shares > 0`) computes a per-asset withdrawal equal to the full current
balance of that asset, for every asset balance — no residual dust. -/
theorem withdraw_all_shares_full_balance (balance total_shares : Nat)
    (hts : 0 < total_shares) (hbal : balance < 2 ^ 64) :
    amount_to_withdraw balance total_shares total_shares = balance := by
  unfold amount_to_withdraw withdrawal_percentage
  rw [Nat.mul_div_cancel_left 1000000 hts, Nat.mul_div_cancel balance (by norm_num)]
  exact Nat.mod_eq_of_lt hbal

/-- Witness for C4 at `total_shares = 55`, `balance = 123456789`. -/
theorem withdraw_all_shares_full_balance_witness :
    0 < 55 ∧ 123456789 < 2 ^ 64 ∧
      amount_to_withdraw 123456789 55 55 = 123456789 :=
  ⟨by decide, by norm_num,
    withdraw_all_shares_full_balance 123456789 55 (by decide) (by norm_num)⟩

/-- Claim C3 (counterexample): `tokens_to_usd` is not checked.  For the
`u64` amount `2^63` at the strictly positive price `3` micro-USD with zero
decimals, the `amount as i64` cast wraps and the function silently returns
the negative value `-2^63` instead of failing with `MathOverflow`. -/
theorem tokens_to_usd_unchecked_wrap :
    NormalizedPrice.tokens_to_usd ⟨3, 3, 0⟩ (2 ^ 63) 0 = -(2 ^ 63) := by decide

/-- Claim C3 (amended): `usd_to_tokens` checks its multiplication and its
division, but its `10^decimals` scale factor (`10i64.pow`) is itself
unchecked: for `decimals ≥ 19` it wraps, and the helper can return a
silently wrapped `Ok` value (second conjunct, at `usd = 1`, `decimals = 19`,
`price = 1`).  For `decimals ≤ 18` — where the scale factor is exact — the
helper either fails with `MathOverflow` or returns exactly the truncated
quotient `usd_micro * 10^decimals / price_usd`, never a wrapped value.
`tokens_to_usd` is unchecked outright (see the counterexample). -/
theorem usd_to_tokens_checked_total :
    (∀ (p : NormalizedPrice) (usd : Int) (d : Nat), d ≤ 18 →
      p.usd_to_tokens usd d = .error .MathOverflow ∨
      p.usd_to_tokens usd d = .ok ((usd * 10 ^ d).tdiv p.price_usd)) ∧
    NormalizedPrice.usd_to_tokens ⟨1, 1, 0⟩ 1 19 = .ok (-8446744073709551616) := by
  constructor
  · intro p usd d hle
    unfold NormalizedPrice.usd_to_tokens
    rw [pow10_eq_of_le hle]
    rcases hm : checkedMul64 usd (10 ^ d) with _ | m
    · left
      rfl
    · have hmv := checkedMul64_some hm
      rcases hd : checkedDiv64 m p.price_usd with _ | q
      · left
        show (Except.ok m >>= fun m => _) = _
        rw [except_bind_ok, hd]
        rfl
      · right
        have hqv := checkedDiv64_some hd
        show (Except.ok m >>= fun m => _) = _
        rw [except_bind_ok, hd]
        show Except.ok q >>= _ = _
        rw [except_bind_ok, hqv, hmv]
        rfl
  · rfl

/-- Witness for C3 (amended) at `usd = 5_000_000`, `d = 6`, price
`1_000_000` micro-USD. -/
theorem usd_to_tokens_checked_total_witness :
    NormalizedPrice.usd_to_tokens ⟨1000000, 1, -6⟩ 5000000 6 = .error .MathOverflow ∨
    NormalizedPrice.usd_to_tokens ⟨1000000, 1, -6⟩ 5000000 6 =
      .ok (((5000000 : Int) * 10 ^ 6).tdiv 1000000) :=
  usd_to_tokens_checked_total.1 ⟨1000000, 1, -6⟩ 5000000 6 (by norm_num)

/-- Claim C10: `get_token_decimals` returns `Ok(9)` for every mint, so the
rebalance valuation `calculate_asset_usd_value` computes
`balance * price / 10^9` for every asset: the result is independent of the
mint and always uses 9-decimal scaling, even for an 8-decimal asset. -/
theorem token_decimals_always_nine (m1 m2 : Pubkey) (balance : Nat) (price : Int)
    (hb : (balance : Int) < 2 ^ 63)
    (hlo : -(2 ^ 63) ≤ (balance : Int) * price)
    (hhi : (balance : Int) * price < 2 ^ 63) :
    get_token_decimals m1 = .ok 9 ∧
    calculate_asset_usd_value balance price m1 = calculate_asset_usd_value balance price m2 ∧
    calculate_asset_usd_value balance price m1 =
      .ok (((balance : Int) * price).tdiv (pow10 9)) := by
  refine ⟨rfl, rfl, ?_⟩
  unfold calculate_asset_usd_value get_token_decimals u64AsI64
  rw [wrap64_eq_self (by omega) hb, wrap64_eq_self hlo hhi]
  rfl

/-- Witness for C10: a 1-BTC balance in 8-decimal units (`100_000_000`) at
price `$50,000` (`50_000_000_000` micro-USD) is valued with 9-decimal
scaling: `5_000_000_000` micro-USD instead of the correct
`50_000_000_000`. -/
theorem token_decimals_always_nine_witness :
    calculate_asset_usd_value 100000000 50000000000 7 = .ok 5000000000 := by
  have h := (token_decimals_always_nine 7 8 100000000 50000000000
    (by norm_num) (by norm_num) (by norm_num)).2.2
  rw [h]
  rfl

/-- Claim C9: for a valid name, `create_vault` rejects every invalid
composition before constructing any vault state: an asset count outside
`[1,10]` fails with `InvalidAssetCount`; with a valid count, weights that do
not sum to 100 or contain a zero weight fail with `InvalidWeights`; and a
vault state is produced exactly when the count is in range, the weights sum
to 100 and are all positive (and the caller supplied the required
`2 * count` remaining accounts). -/
theorem create_vault_validation (admin tokMint : Pubkey) (name : String)
    (assets : List AssetConfig) (racc : Nat)
    (hname : 0 < name.length ∧ name.length ≤ 32) :
    (¬ (0 < assets.length ∧ assets.length ≤ 10) →
      create_vault admin tokMint name assets racc = .error .InvalidAssetCount) ∧
    ((0 < assets.length ∧ assets.length ≤ 10) →
      ¬ ((assets.map fun a => a.weight).sum = 100 ∧ ∀ a ∈ assets, 0 < a.weight) →
      create_vault admin tokMint name assets racc = .error .InvalidWeights) ∧
    ((∃ v, create_vault admin tokMint name assets racc = .ok v) ↔
      0 < assets.length ∧ assets.length ≤ 10 ∧
        (assets.map fun a => a.weight).sum = 100 ∧ (∀ a ∈ assets, 0 < a.weight) ∧
        racc = assets.length * 2) := by
  unfold create_vault
  rw [if_neg (not_not_intro hname)]
  by_cases hc : 0 < assets.length ∧ assets.length ≤ 10
  · rw [if_neg (not_not_intro hc)]
    by_cases hs : (assets.map fun a => a.weight).sum = 100
    · rw [if_neg (not_not_intro hs)]
      by_cases hall : (assets.all fun a => decide (0 < a.weight)) = true
      · rw [if_neg (not_not_intro hall)]
        have hpos : ∀ a ∈ assets, 0 < a.weight := by
          simpa [List.all_eq_true] using hall
        by_cases hr : racc = assets.length * 2
        · rw [if_neg (not_not_intro hr)]
          refine ⟨fun h => absurd hc h, fun _ hw => absurd ⟨hs, hpos⟩ hw, ?_⟩
          constructor
          · intro _
            exact ⟨hc.1, hc.2, hs, hpos, hr⟩
          · intro _
            exact ⟨_, rfl⟩
        · rw [if_pos hr]
          refine ⟨fun h => absurd hc h, fun _ hw => absurd ⟨hs, hpos⟩ hw, ?_⟩
          constructor
          · rintro ⟨v, hv⟩
            cases hv
          · rintro ⟨_, _, _, _, h5⟩
            exact absurd h5 hr
      · rw [if_pos hall]
        refine ⟨fun h => absurd hc h, fun _ _ => rfl, ?_⟩
        constructor
        · rintro ⟨v, hv⟩
          cases hv
        · rintro ⟨_, _, _, h4, _⟩
          exact absurd (by simpa [List.all_eq_true] using h4) hall
    · rw [if_pos hs]
      refine ⟨fun h => absurd hc h, fun _ _ => rfl, ?_⟩
      constructor
      · rintro ⟨v, hv⟩
        cases hv
      · rintro ⟨_, _, h3, _⟩
        exact absurd h3 hs
  · rw [if_pos hc]
    refine ⟨fun _ => rfl, fun hcv _ => absurd hcv hc, ?_⟩
    constructor
    · rintro ⟨v, hv⟩
      cases hv
    · rintro ⟨h1, h2, _⟩
      exact absurd ⟨h1, h2⟩ hc

/-- Witness for C9: a three-asset 40/30/30 composition with a valid name and
the matching six remaining accounts is accepted. -/
theorem create_vault_validation_witness :
    (0 < "ETF".length ∧ "ETF".length ≤ 32) ∧
    (∃ v, create_vault 1 2 "ETF" [⟨10, 40, 20⟩, ⟨11, 30, 21⟩, ⟨12, 30, 22⟩] 6 = .ok v) :=
  ⟨⟨by decide, by decide⟩,
    ((create_vault_validation 1 2 "ETF" [⟨10, 40, 20⟩, ⟨11, 30, 21⟩, ⟨12, 30, 22⟩] 6
      ⟨by decide, by decide⟩).2.2).mpr
      ⟨by decide, by decide, by decide, by decide, by decide⟩⟩

/-- Claim C5 (counterexample): at the strictly positive price `3_000_000`
micro-USD (`$3`) with `0` decimals, the round trip of the positive amount
`x = 2` micro-USD collapses to `0` — an error of `2` units, violating the
claimed one-unit truncation bound (`d = 0` lies in the claimed range
`[0,18]`). -/
theorem roundtrip_error_exceeds_one_unit :
    NormalizedPrice.usd_to_tokens ⟨3000000, 3, -6⟩ 2 0 = .ok 0 ∧
    NormalizedPrice.tokens_to_usd ⟨3000000, 3, -6⟩ (Int.toNat 0) 0 = 0 ∧
    ¬ ((2 : Int) - NormalizedPrice.tokens_to_usd ⟨3000000, 3, -6⟩ (Int.toNat 0) 0 ≤ 1) := by
  refine ⟨rfl, rfl, ?_⟩
  have h0 : NormalizedPrice.tokens_to_usd ⟨3000000, 3, -6⟩ (Int.toNat 0) 0 = 0 := rfl
  rw [h0]
  norm_num

theorem roundtrip_nat (X P D : Nat) (hP : 0 < P) (hPD : P ≤ D) (hX : 0 < X) :
    X * D / P * P / D ≤ X ∧ X - 1 ≤ X * D / P * P / D := by
  have hD : 0 < D := lt_of_lt_of_le hP hPD
  constructor
  · calc X * D / P * P / D ≤ X * D / D :=
          Nat.div_le_div_right (Nat.div_mul_le_self (X * D) P)
      _ = X := Nat.mul_div_cancel X hD
  · obtain ⟨Y, rfl⟩ : ∃ Y, X = Y + 1 := ⟨X - 1, by omega⟩
    have hY : (Y + 1) - 1 = Y := by omega
    rw [hY, Nat.le_div_iff_mul_le hD]
    have hdm : P * ((Y + 1) * D / P) + (Y + 1) * D % P = (Y + 1) * D :=
      Nat.div_add_mod _ _
    have hmlt : (Y + 1) * D % P < P := Nat.mod_lt _ hP
    nlinarith [hdm, hmlt, hPD]

/-- Claim C5 (amended): the round trip `tokens_to_usd (usd_to_tokens x d) d`
stays within one unit of `x` for all positive `x` and decimals `d` in
`[0,18]` provided the (positive) normalized price does not exceed `10^d`
micro-USD; without that price bound the error can exceed one unit (see the
counterexample). -/
theorem roundtrip_within_one_unit (P X d : Nat) (op ex : Int)
    (hX : 0 < X) (hP : 0 < P) (hPD : P ≤ 10 ^ d) (hd : d ≤ 18)
    (hov : (X : Int) * pow10 d < 2 ^ 63) :
    ∃ t : Int, NormalizedPrice.usd_to_tokens ⟨(P : Int), op, ex⟩ (X : Int) d = .ok t ∧
      0 ≤ t ∧
      NormalizedPrice.tokens_to_usd ⟨(P : Int), op, ex⟩ t.toNat d ≤ (X : Int) ∧
      (X : Int) - 1 ≤ NormalizedPrice.tokens_to_usd ⟨(P : Int), op, ex⟩ t.toNat d := by
  have hpow : pow10 d = ((10 ^ d : Nat) : Int) := by
    rw [pow10_eq_of_le hd]
    push_cast
    ring
  have hprodc : (X : Int) * pow10 d = ((X * 10 ^ d : Nat) : Int) := by
    rw [hpow]
    push_cast
    ring
  have hprodnn : (0 : Int) ≤ (X : Int) * pow10 d := by
    rw [hprodc]
    exact Int.ofNat_nonneg _
  have hmul : checkedMul64 (X : Int) (pow10 d) = some ((X : Int) * pow10 d) := by
    unfold checkedMul64
    rw [if_pos ⟨by omega, hov⟩]
  have hPne : ((P : Int) = 0 ∨ ((X : Int) * pow10 d = -(2 ^ 63) ∧ (P : Int) = -1)) → False := by
    rintro (h | ⟨_, h⟩) <;> omega
  have hdiv : checkedDiv64 ((X : Int) * pow10 d) (P : Int) =
      some (((X : Int) * pow10 d).tdiv (P : Int)) := by
    unfold checkedDiv64
    rw [if_neg hPne]
  set T : Nat := X * 10 ^ d / P with hT
  have htval : ((X : Int) * pow10 d).tdiv (P : Int) = (T : Int) := by
    rw [hprodc, tdiv_coe]
  refine ⟨(T : Int), ?_, Int.ofNat_nonneg _, ?_⟩
  · unfold NormalizedPrice.usd_to_tokens
    rw [hmul]
    show Except.ok ((X : Int) * pow10 d) >>= _ = _
    rw [except_bind_ok, hdiv]
    show Except.ok _ >>= _ = _
    rw [except_bind_ok, htval]
    rfl
  · -- evaluate tokens_to_usd at the token amount T
    have hTle : T ≤ X * 10 ^ d := Nat.div_le_self _ _
    have hTP : T * P ≤ X * 10 ^ d := Nat.div_mul_le_self _ _
    have hbig : ((X * 10 ^ d : Nat) : Int) < 2 ^ 63 := by
      rw [← hprodc]
      exact hov
    have hTlt : ((T : Nat) : Int) < 2 ^ 63 := by
      have := Nat.cast_le (α := Int) |>.mpr hTle
      omega
    have hTPlt : ((T * P : Nat) : Int) < 2 ^ 63 := by
      have := Nat.cast_le (α := Int) |>.mpr hTP
      omega
    have hTnn : (0 : Int) ≤ ((T : Nat) : Int) := Int.ofNat_nonneg _
    have hTPnn : (0 : Int) ≤ ((T * P : Nat) : Int) := Int.ofNat_nonneg _
    have hres : NormalizedPrice.tokens_to_usd ⟨(P : Int), op, ex⟩ ((T : Int)).toNat d =
        ((T * P / 10 ^ d : Nat) : Int) := by
      unfold NormalizedPrice.tokens_to_usd u64AsI64
      rw [Int.toNat_ofNat]
      rw [wrap64_eq_self (by omega) hTlt]
      have hc : ((T : Nat) : Int) * (P : Int) = ((T * P : Nat) : Int) := by
        push_cast
        ring
      rw [hc]
      rw [wrap64_eq_self (by omega) hTPlt, hpow, tdiv_coe]
    rw [hres]
    have hb := roundtrip_nat X P (10 ^ d) hP hPD hX
    rw [← hT] at hb
    constructor
    · exact_mod_cast hb.1
    · have := hb.2
      omega

/-- Witness for C5 (amended) at `x = 1234567`, `d = 6`, price `1_000_000`
micro-USD: the round trip returns `x` exactly. -/
theorem roundtrip_within_one_unit_witness :
    ∃ t : Int, NormalizedPrice.usd_to_tokens ⟨(1000000 : Nat), 1, -6⟩ ((1234567 : Nat) : Int) 6 = .ok t ∧
      0 ≤ t ∧
      NormalizedPrice.tokens_to_usd ⟨(1000000 : Nat), 1, -6⟩ t.toNat 6 ≤ ((1234567 : Nat) : Int) ∧
      ((1234567 : Nat) : Int) - 1 ≤ NormalizedPrice.tokens_to_usd ⟨(1000000 : Nat), 1, -6⟩ t.toNat 6 :=
  roundtrip_within_one_unit 1000000 1234567 6 1 (-6)
    (by norm_num) (by norm_num) (by norm_num) (by norm_num)
    (by rw [pow10_eq_of_le (by norm_num)]; norm_num)

/-! Shared helper lemmas about the rebalancing embeddings. -/

theorem calculate_asset_usd_value_ok (b : Nat) (p : Int) (m : Pubkey)
    (hb : (b : Int) < 2 ^ 63)
    (hlo : -(2 ^ 63) ≤ (b : Int) * p) (hhi : (b : Int) * p < 2 ^ 63) :
    calculate_asset_usd_value b p m = .ok (((b : Int) * p).tdiv (pow10 9)) := by
  unfold calculate_asset_usd_value get_token_decimals u64AsI64
  rw [wrap64_eq_self (by omega) hb, wrap64_eq_self hlo hhi]
  rfl

theorem calculate_asset_usd_eq_exact (b : Nat) (p : Int) (hp : 0 < p)
    (hhi : (b : Int) * p < 2 ^ 63) :
    calculate_asset_usd b p 9 = ((b : Int) * p).tdiv (pow10 9) := by
  simp only [calculate_asset_usd]
  by_cases hb0 : b = 0
  · subst hb0
    rw [if_pos (Or.inl rfl)]
    have h0 : ((0 : Nat) : Int) * p = 0 := by push_cast; ring
    rw [h0, Int.zero_tdiv]
  · have hnz : ¬(b = 0 ∨ p ≤ 0) := by push_neg; exact ⟨hb0, hp⟩
    rw [if_neg hnz]
    have hnn : (0 : Int) ≤ (b : Int) * p := mul_nonneg (Int.ofNat_nonneg b) hp.le
    rw [wrap128_eq_self (by omega) (by omega)]
    have hq0 : (0 : Int) ≤ ((b : Int) * p).tdiv (pow10i128 9) :=
      tdiv_nonneg_of hnn (by norm_num [pow10i128])
    have hqle : ((b : Int) * p).tdiv (pow10i128 9) ≤ (b : Int) * p :=
      tdiv_le_self_of hnn (by norm_num [pow10i128])
    rw [if_neg (by omega : ¬((2 : Int) ^ 63 - 1 < ((b : Int) * p).tdiv (pow10i128 9)))]
    rw [wrap64_eq_self (by omega) (by omega)]
    norm_num [pow10i128, pow10_nine]

theorem plainTotals_ok (m0 m1 m2 : Pubkey) (w0 w1 w2 b0 b1 b2 : Nat)
    (p0 p1 p2 : Int) (hp0 : 0 < p0) (hp1 : 0 < p1) (hp2 : 0 < p2)
    (hsum : (b0 : Int) * p0 + (b1 : Int) * p1 + (b2 : Int) * p2 < 2 ^ 56) :
    plainTotals ⟨m0, m1, m2, w0, w1, w2, b0, b1, b2, p0, p1, p2⟩ =
      .ok (((b0 : Int) * p0).tdiv (pow10 9),
        ((b1 : Int) * p1).tdiv (pow10 9),
        ((b2 : Int) * p2).tdiv (pow10 9),
        ((b0 : Int) * p0).tdiv (pow10 9) + ((b1 : Int) * p1).tdiv (pow10 9)
          + ((b2 : Int) * p2).tdiv (pow10 9)) := by
  have hnn0 : (0 : Int) ≤ (b0 : Int) * p0 := mul_nonneg (Int.ofNat_nonneg _) hp0.le
  have hnn1 : (0 : Int) ≤ (b1 : Int) * p1 := mul_nonneg (Int.ofNat_nonneg _) hp1.le
  have hnn2 : (0 : Int) ≤ (b2 : Int) * p2 := mul_nonneg (Int.ofNat_nonneg _) hp2.le
  have hb0 : (b0 : Int) < 2 ^ 63 := by
    have := le_mul_of_one_le_right (Int.ofNat_nonneg b0) (by omega : (1 : Int) ≤ p0)
    linarith
  have hb1 : (b1 : Int) < 2 ^ 63 := by
    have := le_mul_of_one_le_right (Int.ofNat_nonneg b1) (by omega : (1 : Int) ≤ p1)
    linarith
  have hb2 : (b2 : Int) < 2 ^ 63 := by
    have := le_mul_of_one_le_right (Int.ofNat_nonneg b2) (by omega : (1 : Int) ≤ p2)
    linarith
  have h0 := calculate_asset_usd_value_ok b0 p0 m0 hb0 (by linarith) (by linarith)
  have h1 := calculate_asset_usd_value_ok b1 p1 m1 hb1 (by linarith) (by linarith)
  have h2 := calculate_asset_usd_value_ok b2 p2 m2 hb2 (by linarith) (by linarith)
  set u0 : Int := ((b0 : Int) * p0).tdiv (pow10 9) with hu0def
  set u1 : Int := ((b1 : Int) * p1).tdiv (pow10 9) with hu1def
  set u2 : Int := ((b2 : Int) * p2).tdiv (pow10 9) with hu2def
  have hu0 : 0 ≤ u0 ∧ u0 ≤ (b0 : Int) * p0 :=
    ⟨tdiv_nonneg_of hnn0 (by norm_num [pow10_nine]), tdiv_le_self_of hnn0 (by norm_num [pow10_nine])⟩
  have hu1 : 0 ≤ u1 ∧ u1 ≤ (b1 : Int) * p1 :=
    ⟨tdiv_nonneg_of hnn1 (by norm_num [pow10_nine]), tdiv_le_self_of hnn1 (by norm_num [pow10_nine])⟩
  have hu2 : 0 ≤ u2 ∧ u2 ≤ (b2 : Int) * p2 :=
    ⟨tdiv_nonneg_of hnn2 (by norm_num [pow10_nine]), tdiv_le_self_of hnn2 (by norm_num [pow10_nine])⟩
  unfold plainTotals
  rw [h0]
  show Except.ok _ >>= _ = _
  rw [except_bind_ok, h1]
  show Except.ok _ >>= _ = _
  rw [except_bind_ok, h2]
  show Except.ok _ >>= _ = _
  rw [except_bind_ok]
  have ha0 : checkedAdd64 0 u0 = some (0 + u0) := by
    unfold checkedAdd64
    exact if_pos ⟨by linarith, by linarith⟩
  rw [ha0]
  simp only [orOverflow]
  show Except.ok _ >>= _ = _
  rw [except_bind_ok]
  have ha1 : checkedAdd64 (0 + u0) u1 = some (0 + u0 + u1) := by
    unfold checkedAdd64
    exact if_pos ⟨by linarith, by linarith⟩
  rw [ha1]
  simp only [orOverflow]
  show Except.ok _ >>= _ = _
  rw [except_bind_ok]
  have ha2 : checkedAdd64 (0 + u0 + u1) u2 = some (0 + u0 + u1 + u2) := by
    unfold checkedAdd64
    exact if_pos ⟨by linarith, by linarith⟩
  rw [ha2]
  simp only [orOverflow]
  show Except.ok _ >>= _ = _
  rw [except_bind_ok]
  simp only [zero_add]
  rfl

/-- Claim C7: the drift-threshold comparison is strict on both rebalancing
paths.  The circuit's `swap_needed` is true exactly when the vault is
non-empty and some reported drift strictly exceeds the input threshold; the
plaintext verdict is true exactly when the TVL is nonzero and some asset's
absolute drift strictly exceeds the hardcoded threshold `5`.  In particular
an asset whose |drift| equals the threshold does not trigger rebalancing. -/
theorem drift_threshold_strict (inp : RebalancingInput) (s : Snapshot)
    (u0 u1 u2 total : Int)
    (hplain : plainTotals s = .ok (u0, u1, u2, total)) :
    ((compute_rebalancing inp).swap_needed = true ↔
      ((compute_rebalancing inp).total_tvl_usd ≠ 0 ∧
        ∃ dr ∈ (compute_rebalancing inp).drifts, (inp.threshold : Int) < |dr|)) ∧
    (plainNeedsRebalance s = .ok true ↔
      (total ≠ 0 ∧ (5 < |plainDriftPct u0 total s.weight0| ∨
        5 < |plainDriftPct u1 total s.weight1| ∨
        5 < |plainDriftPct u2 total s.weight2|))) := by
  constructor
  · show (circuitNeeds inp && (! decide (circuitTotalUsd inp = 0))) = true ↔
      (circuitTotalUsd inp ≠ 0 ∧
        ∃ dr ∈ [circuitDriftPct inp 0, circuitDriftPct inp 1, circuitDriftPct inp 2],
          (inp.threshold : Int) < |dr|)
    simp only [circuitNeeds, Bool.and_eq_true, Bool.or_eq_true, decide_eq_true_eq,
      Bool.not_eq_true', decide_eq_false_iff_not, List.mem_cons, List.not_mem_nil,
      or_false]
    constructor
    · rintro ⟨hn, hne⟩
      refine ⟨hne, ?_⟩
      rcases hn with (h | h) | h
      · exact ⟨_, Or.inl rfl, h⟩
      · exact ⟨_, Or.inr (Or.inl rfl), h⟩
      · exact ⟨_, Or.inr (Or.inr rfl), h⟩
    · rintro ⟨hne, dr, hmem, hdr⟩
      refine ⟨?_, hne⟩
      rcases hmem with rfl | rfl | rfl
      · exact Or.inl (Or.inl hdr)
      · exact Or.inl (Or.inr hdr)
      · exact Or.inr hdr
  · unfold plainNeedsRebalance
    rw [hplain]
    show Except.ok _ >>= _ = _ ↔ _
    rw [except_bind_ok]
    show (if total = 0 then pure false
      else pure (decide (5 < |plainDriftPct u0 total s.weight0|)
        || decide (5 < |plainDriftPct u1 total s.weight1|)
        || decide (5 < |plainDriftPct u2 total s.weight2|))) = Except.ok true ↔ _
    by_cases ht : total = 0
    · rw [if_pos ht]
      constructor
      · intro h
        exact Bool.noConfusion (Except.ok.inj h)
      · rintro ⟨hne, _⟩
        exact absurd ht hne
    · rw [if_neg ht]
      constructor
      · intro h
        have hb : (decide (5 < |plainDriftPct u0 total s.weight0|)
            || decide (5 < |plainDriftPct u1 total s.weight1|)
            || decide (5 < |plainDriftPct u2 total s.weight2|)) = true :=
          Except.ok.inj h
        refine ⟨ht, ?_⟩
        simpa [Bool.or_eq_true, decide_eq_true_eq, or_assoc] using hb
      · rintro ⟨_, hd⟩
        have hb : (decide (5 < |plainDriftPct u0 total s.weight0|)
            || decide (5 < |plainDriftPct u1 total s.weight1|)
            || decide (5 < |plainDriftPct u2 total s.weight2|)) = true := by
          simpa [Bool.or_eq_true, decide_eq_true_eq, or_assoc] using hd
        show pure (decide (5 < |plainDriftPct u0 total s.weight0|)
          || decide (5 < |plainDriftPct u1 total s.weight1|)
          || decide (5 < |plainDriftPct u2 total s.weight2|)) = Except.ok true
        rw [hb]
        rfl

/-- Witness for C7: with weights 40/30/30 and USD values `(45,30,25)` of a
total of `100`, the drifts are exactly `(+5, 0, -5)` at threshold `5`: the
boundary drift does not trigger rebalancing on either path. -/
theorem drift_threshold_strict_witness :
    plainNeedsRebalance ⟨1, 2, 3, 40, 30, 30, 45, 30, 25,
      1000000000, 1000000000, 1000000000⟩ ≠ .ok true ∧
    (compute_rebalancing ⟨45, 30, 25, 1000000000, 1000000000, 1000000000,
      40, 30, 30, 9, 9, 9, 5⟩).swap_needed ≠ true := by
  have h := drift_threshold_strict
    ⟨45, 30, 25, 1000000000, 1000000000, 1000000000, 40, 30, 30, 9, 9, 9, 5⟩
    ⟨1, 2, 3, 40, 30, 30, 45, 30, 25, 1000000000, 1000000000, 1000000000⟩
    45 30 25 100 rfl
  constructor
  · intro hc
    have := h.2.mp hc
    revert this
    decide
  · intro hc
    have := h.1.mp hc
    revert this
    decide

/-- Claim C8: the empty-pool short-circuit.  When the plaintext STEP-3 TVL
is `0` (for example when all balances are zero), `rebalance` returns
successfully with no rebalance and no swaps — the drift divisions are never
reached; likewise the circuit reports `swap_needed = false` and generates no
swaps when its TVL is `0` (its divisions are guarded by the same emptiness
test). -/
theorem empty_pool_short_circuit (s : Snapshot) (inp : RebalancingInput)
    (u0 u1 u2 : Int)
    (hplain : plainTotals s = .ok (u0, u1, u2, 0))
    (hcirc : circuitTotalUsd inp = 0) :
    plainRebalance s = .ok ⟨false, []⟩ ∧
    plainNeedsRebalance s = .ok false ∧
    (compute_rebalancing inp).swap_needed = false ∧
    (compute_rebalancing inp).swap_count = 0 := by
  refine ⟨?_, ?_, ?_, ?_⟩
  · unfold plainRebalance
    rw [hplain]
    rfl
  · unfold plainNeedsRebalance
    rw [hplain]
    rfl
  · simp [compute_rebalancing, hcirc]
  · simp [compute_rebalancing, circuitSwapGen, hcirc]

/-- Witness for C8: all-zero balances with weights 40/30/30 and arbitrary
positive prices: both paths short-circuit. -/
theorem empty_pool_short_circuit_witness :
    plainRebalance ⟨1, 2, 3, 40, 30, 30, 0, 0, 0,
      50000000000, 3000000000, 150000000⟩ = .ok ⟨false, []⟩ ∧
    (compute_rebalancing ⟨0, 0, 0, 50000000000, 3000000000, 150000000,
      40, 30, 30, 9, 9, 9, 5⟩).swap_needed = false := by
  have h := empty_pool_short_circuit
    ⟨1, 2, 3, 40, 30, 30, 0, 0, 0, 50000000000, 3000000000, 150000000⟩
    ⟨0, 0, 0, 50000000000, 3000000000, 150000000, 40, 30, 30, 9, 9, 9, 5⟩
    0 0 0 rfl rfl
  exact ⟨h.1, h.2.2.1⟩

/-- Claim C2 (counterexample): on one identical input snapshot — balances
`(2_000_000, 0, 0)`, all prices `1_000_000` micro-USD, weights 40/30/30,
9-decimal assets, threshold 5 — both paths agree that rebalancing is needed,
yet the plaintext path executes zero swaps (each matched amount, `$0.0006`,
is below its hardcoded `$1` minimum-swap filter) while the circuit emits two
swap instructions: the swap sequences are not identical. -/
theorem rebalance_paths_swap_divergence :
    plainRebalance ⟨1, 2, 3, 40, 30, 30, 2000000, 0, 0, 1000000, 1000000, 1000000⟩ =
      .ok ⟨true, []⟩ ∧
    (compute_rebalancing ⟨2000000, 0, 0, 1000000, 1000000, 1000000,
      40, 30, 30, 9, 9, 9, 5⟩).swap_count = 2 := by
  exact ⟨rfl, rfl⟩

/-- Claim C2 (amended): the two rebalancing paths agree on the
needs-rebalance decision.  For every snapshot with positive prices whose
balance-price products stay in the `i64`-safe range, with the circuit run at
the plaintext path's hardcoded parameters (9-decimal assets, threshold 5),
the plaintext verdict equals the circuit's `swap_needed`.  The generated
swap sequences, however, differ (see the counterexample). -/
theorem rebalance_verdict_equivalence
    (m0 m1 m2 : Pubkey) (w0 w1 w2 b0 b1 b2 : Nat) (p0 p1 p2 : Int)
    (hp0 : 0 < p0) (hp1 : 0 < p1) (hp2 : 0 < p2)
    (hsum : (b0 : Int) * p0 + (b1 : Int) * p1 + (b2 : Int) * p2 < 2 ^ 56) :
    plainNeedsRebalance ⟨m0, m1, m2, w0, w1, w2, b0, b1, b2, p0, p1, p2⟩ =
      .ok (compute_rebalancing
        ⟨b0, b1, b2, p0, p1, p2, w0, w1, w2, 9, 9, 9, 5⟩).swap_needed := by
  have hnn0 : (0 : Int) ≤ (b0 : Int) * p0 := mul_nonneg (Int.ofNat_nonneg _) hp0.le
  have hnn1 : (0 : Int) ≤ (b1 : Int) * p1 := mul_nonneg (Int.ofNat_nonneg _) hp1.le
  have hnn2 : (0 : Int) ≤ (b2 : Int) * p2 := mul_nonneg (Int.ofNat_nonneg _) hp2.le
  have htot := plainTotals_ok m0 m1 m2 w0 w1 w2 b0 b1 b2 p0 p1 p2 hp0 hp1 hp2 hsum
  set inp : RebalancingInput := ⟨b0, b1, b2, p0, p1, p2, w0, w1, w2, 9, 9, 9, 5⟩
    with hinp
  set u0 : Int := ((b0 : Int) * p0).tdiv (pow10 9) with hu0def
  set u1 : Int := ((b1 : Int) * p1).tdiv (pow10 9) with hu1def
  set u2 : Int := ((b2 : Int) * p2).tdiv (pow10 9) with hu2def
  have hu0 : 0 ≤ u0 ∧ u0 ≤ (b0 : Int) * p0 := by
    rw [hu0def]
    exact ⟨tdiv_nonneg_of hnn0 (by norm_num [pow10_nine]),
      tdiv_le_self_of hnn0 (by norm_num [pow10_nine])⟩
  have hu1 : 0 ≤ u1 ∧ u1 ≤ (b1 : Int) * p1 := by
    rw [hu1def]
    exact ⟨tdiv_nonneg_of hnn1 (by norm_num [pow10_nine]),
      tdiv_le_self_of hnn1 (by norm_num [pow10_nine])⟩
  have hu2 : 0 ≤ u2 ∧ u2 ≤ (b2 : Int) * p2 := by
    rw [hu2def]
    exact ⟨tdiv_nonneg_of hnn2 (by norm_num [pow10_nine]),
      tdiv_le_self_of hnn2 (by norm_num [pow10_nine])⟩
  have hcu0 : circuitUsd inp 0 = u0 := by
    show calculate_asset_usd b0 p0 9 = u0
    rw [hu0def]
    exact calculate_asset_usd_eq_exact b0 p0 hp0 (by linarith)
  have hcu1 : circuitUsd inp 1 = u1 := by
    show calculate_asset_usd b1 p1 9 = u1
    rw [hu1def]
    exact calculate_asset_usd_eq_exact b1 p1 hp1 (by linarith)
  have hcu2 : circuitUsd inp 2 = u2 := by
    show calculate_asset_usd b2 p2 9 = u2
    rw [hu2def]
    exact calculate_asset_usd_eq_exact b2 p2 hp2 (by linarith)
  have htc : circuitTotalUsd inp = u0 + u1 + u2 := by
    unfold circuitTotalUsd
    rw [hcu0, hcu1, hcu2]
    have hw0 : wrap64 (0 + u0) = 0 + u0 := wrap64_eq_self (by linarith) (by linarith)
    rw [hw0]
    have hw1 : wrap64 (0 + u0 + u1) = 0 + u0 + u1 :=
      wrap64_eq_self (by linarith) (by linarith)
    rw [hw1]
    have hw2 : wrap64 (0 + u0 + u1 + u2) = 0 + u0 + u1 + u2 :=
      wrap64_eq_self (by linarith) (by linarith)
    rw [hw2]
    ring
  unfold plainNeedsRebalance
  rw [htot]
  show Except.ok _ >>= _ = _
  rw [except_bind_ok]
  show (if u0 + u1 + u2 = 0 then pure false
    else pure (decide (5 < |plainDriftPct u0 (u0 + u1 + u2) w0|)
      || decide (5 < |plainDriftPct u1 (u0 + u1 + u2) w1|)
      || decide (5 < |plainDriftPct u2 (u0 + u1 + u2) w2|))) =
    Except.ok (circuitNeeds inp && (! decide (circuitTotalUsd inp = 0)))
  rw [htc]
  by_cases ht : u0 + u1 + u2 = 0
  · rw [if_pos ht]
    have hdec : decide (u0 + u1 + u2 = 0) = true := decide_eq_true ht
    rw [hdec]
    show Except.ok false = Except.ok (circuitNeeds inp && false)
    rw [Bool.and_false]
  · rw [if_neg ht]
    have hdec : decide (u0 + u1 + u2 = 0) = false := decide_eq_false ht
    rw [hdec]
    have hd0 : circuitDriftPct inp 0 = plainDriftPct u0 (u0 + u1 + u2) w0 := by
      unfold circuitDriftPct plainDriftPct
      rw [htc, if_neg ht, hcu0]
      rfl
    have hd1 : circuitDriftPct inp 1 = plainDriftPct u1 (u0 + u1 + u2) w1 := by
      unfold circuitDriftPct plainDriftPct
      rw [htc, if_neg ht, hcu1]
      rfl
    have hd2 : circuitDriftPct inp 2 = plainDriftPct u2 (u0 + u1 + u2) w2 := by
      unfold circuitDriftPct plainDriftPct
      rw [htc, if_neg ht, hcu2]
      rfl
    have hneeds : circuitNeeds inp =
        (decide (5 < |plainDriftPct u0 (u0 + u1 + u2) w0|)
          || decide (5 < |plainDriftPct u1 (u0 + u1 + u2) w1|)
          || decide (5 < |plainDriftPct u2 (u0 + u1 + u2) w2|)) := by
      unfold circuitNeeds
      rw [hd0, hd1, hd2]
      norm_num
    rw [hneeds]
    show Except.ok _ = Except.ok (_ && !false)
    rw [Bool.not_false, Bool.and_true]

/-- Witness for C2 (amended) on balances `(1000, 0, 0)` at price `$1`
(1_000_000 micro-USD) each, weights 40/30/30: both verdicts are `true`. -/
theorem rebalance_verdict_equivalence_witness :
    plainNeedsRebalance ⟨1, 2, 3, 40, 30, 30, 1000, 0, 0,
      1000000, 1000000, 1000000⟩ =
      .ok (compute_rebalancing ⟨1000, 0, 0, 1000000, 1000000, 1000000,
        40, 30, 30, 9, 9, 9, 5⟩).swap_needed :=
  rebalance_verdict_equivalence 1 2 3 40 30 30 1000 0 0 1000000 1000000 1000000
    (by norm_num) (by norm_num) (by norm_num) (by norm_num)

end ETFVault
